import Mathlib

/-
Verification of the conversation-tree cache and dispatcher of the chat-index
repository. Python dictionaries keyed by integer ids are embedded as partial
maps `Nat → Option α`; unbounded while-loops are embedded with an explicit
fuel argument whose exhaustion is a distinguished error; Python exceptions
(KeyError, IndexError, AssertionError, failing store calls) are embedded as
`Except` errors. Definitions follow the source files
backend/services/chat_trees.py, services/chat_trees.py, services/dispatcher.py
and backend/db/db.py.
-/

abbrev Dict (α : Type) := Nat → Option α

def dset {α : Type} (m : Dict α) (k : Nat) (v : α) : Dict α :=
  fun x => if x = k then some v else m x

def ddel {α : Type} (m : Dict α) (k : Nat) : Dict α :=
  fun x => if x = k then none else m x

def dempty {α : Type} : Dict α := fun _ => none

/-- Python truthiness of an optional integer: None and 0 are falsy. -/
def truthy : Option Nat → Bool
  | none => false
  | some n => !(n == 0)

structure MessageNode where
  id : Nat
  content : String
  parent_id : Option Nat
  child_ids : List Nat
deriving DecidableEq

structure SummaryNode where
  id : Nat
  content : String
  start_message_id : Nat
  end_message_id : Nat
  parent_id : Option Nat
  child_ids : List Nat
deriving DecidableEq

structure SummaryIndex where
  start_message_lookup : Dict Nat
  end_message_lookup : Dict Nat
  summary_id_lookup : Dict SummaryNode

/-- Errors of the embedded code: a failing durable-store call, a Python
KeyError raised by indexing a dict with None, any other KeyError or
IndexError, an AssertionError, and exhaustion of the embedding's fuel. -/
inductive HErr where
  | storeErr
  | keyErrNone
  | keyErr
  | assertionFail
  | fuelOut
deriving DecidableEq

namespace Backend

/-- backend/services/chat_trees.py MessageTree.add_message: installs the new
node, and when prev_message_id is present appends the new id to the parent's
child list (KeyError when the parent is absent). There is no guard on a
second parentless node. -/
def add_message (index : Dict MessageNode) (message_id : Nat)
    (message_content : String) (prev_message_id : Option Nat) :
    Except HErr (Dict MessageNode) :=
  let index1 := dset index message_id
    ⟨message_id, message_content, prev_message_id, []⟩
  match prev_message_id with
  | none => .ok index1
  | some p =>
    match index1 p with
    | none => .error .keyErr
    | some pn => .ok (dset index1 p { pn with child_ids := pn.child_ids ++ [message_id] })

/-- backend/services/chat_trees.py SummaryTree.count_unsummarized_messages:
walk parent links until the current id is None or is an end-of-summary key,
counting hops. Fuel bounds the unbounded while loop; a missing message id
yields the KeyError of `self.message_tree.index[message_id]`. -/
def count_unsummarized_messages (mt : Dict MessageNode) (endl : Dict Nat) :
    Nat → Option Nat → Option Nat
  | 0, _ => none
  | _ + 1, none => some 0
  | fuel + 1, some m =>
    if (endl m).isSome then some 0
    else
      match mt m with
      | none => none
      | some msg => (count_unsummarized_messages mt endl fuel msg.parent_id).map (· + 1)

/-- backend/services/chat_trees.py SummaryTree.is_summarized: walk child
links; an end-of-summary key yields true, a leaf yields false, two or more
children trip the `assert len(child_ids) == 1`. -/
def is_summarized (mt : Dict MessageNode) (endl : Dict Nat) :
    Nat → Nat → Except HErr Bool
  | 0, _ => .error .fuelOut
  | fuel + 1, m =>
    if (endl m).isSome then .ok true
    else
      match mt m with
      | none => .error .keyErr
      | some node =>
        match node.child_ids with
        | [] => .ok false
        | [c] => is_summarized mt endl fuel c
        | _ :: _ :: _ => .error .assertionFail

/-- backend/services/chat_trees.py SummaryTree.split_summary: remove the old
node and its two inverse-index entries, then install pre and post nodes with
the rewired spans and edges. `none` stands for the KeyError on a missing
summary id or branch-off message and the IndexError on `child_ids[0]`. -/
def split_summary (mt : Dict MessageNode) (idx : SummaryIndex)
    (summary_id pre_summary_id : Nat) (pre_summary_content : String)
    (branch_off_message_id post_summary_id : Nat) (post_summary_content : String) :
    Option SummaryIndex :=
  match idx.summary_id_lookup summary_id with
  | none => none
  | some summary =>
    let l1 := ddel idx.summary_id_lookup summary_id
    let s1 := ddel idx.start_message_lookup summary.start_message_id
    let e1 := ddel idx.end_message_lookup summary.end_message_id
    match mt branch_off_message_id with
    | none => none
    | some bnode =>
      match bnode.child_ids with
      | [] => none
      | c0 :: _ =>
        let pre : SummaryNode :=
          ⟨pre_summary_id, pre_summary_content, summary.start_message_id,
            branch_off_message_id, summary.parent_id, [post_summary_id]⟩
        let post : SummaryNode :=
          ⟨post_summary_id, post_summary_content, c0,
            summary.end_message_id, some pre_summary_id, summary.child_ids⟩
        some ⟨dset (dset s1 summary.start_message_id pre_summary_id) c0 post_summary_id,
              dset (dset e1 branch_off_message_id pre_summary_id)
                summary.end_message_id post_summary_id,
              dset (dset l1 pre_summary_id pre) post_summary_id post⟩

/-- backend/services/chat_trees.py SummaryTree.add_summary: compute the
parent summary through the end lookup at the start's parent (Python truthiness
guard, then a second `is not None` guard), append the new id to that parent's
child list, and install node and index entries. -/
def add_summary (mt : Dict MessageNode) (idx : SummaryIndex)
    (summary_id : Nat) (content : String) (start_message_id end_message_id : Nat) :
    Except HErr SummaryIndex :=
  match mt start_message_id with
  | none => .error .keyErr
  | some snode =>
    let prevEnd := snode.parent_id
    let parentRes : Except HErr (Option Nat) :=
      if truthy prevEnd then
        match prevEnd with
        | none => .error .keyErr
        | some pe =>
          match idx.end_message_lookup pe with
          | none => .error .keyErr
          | some pid => .ok (some pid)
      else .ok none
    match parentRes with
    | .error e => .error e
    | .ok summaryParent =>
      let node : SummaryNode :=
        ⟨summary_id, content, start_message_id, end_message_id, summaryParent, []⟩
      match prevEnd with
      | some pe =>
        match idx.end_message_lookup pe with
        | none => .error .keyErr
        | some prevSid =>
          match idx.summary_id_lookup prevSid with
          | none => .error .keyErr
          | some pn =>
            .ok ⟨dset idx.start_message_lookup start_message_id summary_id,
                 dset idx.end_message_lookup end_message_id summary_id,
                 dset (dset idx.summary_id_lookup prevSid
                    { pn with child_ids := pn.child_ids ++ [summary_id] })
                   summary_id node⟩
      | none =>
          .ok ⟨dset idx.start_message_lookup start_message_id summary_id,
               dset idx.end_message_lookup end_message_id summary_id,
               dset idx.summary_id_lookup summary_id node⟩

end Backend

/-- A summary row as fetched from the durable store. -/
structure SummaryRow where
  id : Nat
  content : String
  start_message_id : Nat
  end_message_id : Nat
deriving DecidableEq

namespace Backend

def mkSummaryNode (r : SummaryRow) : SummaryNode :=
  ⟨r.id, r.content, r.start_message_id, r.end_message_id, none, []⟩

/-- First pass of backend/services/chat_trees.py SummaryTree._load_index: one
node per fetched summary and both inverse index entries, in list order. -/
def load_phase1 (rows : List SummaryRow) : SummaryIndex :=
  rows.foldl
    (fun idx r =>
      ⟨dset idx.start_message_lookup r.start_message_id r.id,
       dset idx.end_message_lookup r.end_message_id r.id,
       dset idx.summary_id_lookup r.id (mkSummaryNode r)⟩)
    ⟨dempty, dempty, dempty⟩

/-- Child linkage in the second pass of _load_index: children of the end
message whose start is not a start-of-summary key are skipped with
`continue`; summarized ones are appended to the node's child list. -/
def appendChildren (startl : Dict Nat) (sid : Nat) :
    Dict SummaryNode → List Nat → Except HErr (Dict SummaryNode)
  | idl, [] => .ok idl
  | idl, c :: rest =>
    match startl c with
    | none => appendChildren startl sid idl rest
    | some childSid =>
      match idl sid with
      | none => .error .keyErr
      | some n =>
        appendChildren startl sid
          (dset idl sid { n with child_ids := n.child_ids ++ [childSid] }) rest

/-- One summary of the second pass of _load_index: parent linkage looks the
start's parent up in the end lookup with a plain dict subscript
(`end_message_lookup[parent_end_message_id]`), raising KeyError when no
summary ends there; then child linkage. -/
def load_phase2_step (mt : Dict MessageNode) (startl endl : Dict Nat)
    (idl : Dict SummaryNode) (r : SummaryRow) : Except HErr (Dict SummaryNode) :=
  match mt r.start_message_id with
  | none => .error .keyErr
  | some snode =>
    let afterParent : Except HErr (Dict SummaryNode) :=
      if truthy snode.parent_id then
        match snode.parent_id with
        | none => .error .keyErr
        | some p =>
          match endl p with
          | none => .error .keyErr
          | some parentSid =>
            match idl r.id with
            | none => .error .keyErr
            | some n => .ok (dset idl r.id { n with parent_id := some parentSid })
      else .ok idl
    match afterParent with
    | .error e => .error e
    | .ok idl1 =>
      match mt r.end_message_id with
      | none => .error .keyErr
      | some enode => appendChildren startl r.id idl1 enode.child_ids

def load_phase2 (mt : Dict MessageNode) (startl endl : Dict Nat) :
    Dict SummaryNode → List SummaryRow → Except HErr (Dict SummaryNode)
  | idl, [] => .ok idl
  | idl, r :: rest =>
    match load_phase2_step mt startl endl idl r with
    | .error e => .error e
    | .ok idl1 => load_phase2 mt startl endl idl1 rest

/-- backend/services/chat_trees.py SummaryTree._load_index: build the three
lookups, map parents and children, and read the root summary id off the
message tree's root with a tolerant `.get`. -/
def load_index (mt : Dict MessageNode) (root_message_id : Nat)
    (rows : List SummaryRow) : Except HErr (Option Nat × SummaryIndex) :=
  let p1 := load_phase1 rows
  match load_phase2 mt p1.start_message_lookup p1.end_message_lookup
      p1.summary_id_lookup rows with
  | .error e => .error e
  | .ok idl =>
    .ok (p1.start_message_lookup root_message_id,
         ⟨p1.start_message_lookup, p1.end_message_lookup, idl⟩)

end Backend

namespace TreeCache

/-- The cache's OrderedDict, front of the list being the front of the dict:
key-value pairs in order, unique keys. -/
abbrev OD (V : Type) := List (Nat × V)

def odLookup {V : Type} (cache : OD V) (k : Nat) : Option V :=
  (cache.find? (fun p => p.1 == k)).map (·.2)

/-- Plain dict assignment: replace in place when the key exists, else append
at the back. -/
def odSet {V : Type} (cache : OD V) (k : Nat) (v : V) : OD V :=
  if (cache.find? (fun p => p.1 == k)).isSome then
    cache.map (fun p => if p.1 == k then (k, v) else p)
  else cache ++ [(k, v)]

/-- OrderedDict.move_to_end(key, last=False): move the entry to the front. -/
def odMoveFront {V : Type} (cache : OD V) (k : Nat) : OD V :=
  match cache.find? (fun p => p.1 == k) with
  | none => cache
  | some pr => pr :: cache.filter (fun q => !(q.1 == k))

structure CacheState (V : Type) where
  cache : OD V
  max_capacity : Nat
  curr_capacity : Nat
deriving DecidableEq

/-- backend/services/chat_trees.py TreeCache.get: on a miss, when
curr_capacity equals max_capacity pop the back entry (popitem(last=True),
raising KeyError on an empty OrderedDict — the `none` result), then build the
pair for the thread, insert it and move it to the front. On a hit the entry
is returned with no reordering. -/
def get {V : Type} (build : Nat → V) (c : CacheState V) (thread_id : Nat) :
    Option (V × CacheState V) :=
  match odLookup c.cache thread_id with
  | some v => some (v, c)
  | none =>
    let evicted : Option (CacheState V) :=
      if c.max_capacity == c.curr_capacity then
        match c.cache with
        | [] => none
        | _ :: _ =>
          some { c with cache := c.cache.dropLast,
                        curr_capacity := c.curr_capacity - 1 }
      else some c
    match evicted with
    | none => none
    | some c1 =>
      let v := build thread_id
      let cache2 := odSet c1.cache thread_id v
      let cache3 := odMoveFront cache2 thread_id
      some (v, { c1 with cache := cache3, curr_capacity := c1.curr_capacity + 1 })

/-- backend/services/chat_trees.py TreeCache.delete: drop the entry when
present; curr_capacity is not touched. -/
def delete {V : Type} (c : CacheState V) (thread_id : Nat) : CacheState V :=
  match odLookup c.cache thread_id with
  | none => c
  | some _ => { c with cache := c.cache.filter (fun p => !(p.1 == thread_id)) }

/-- Run a sequence of get calls, keeping the evolving cache state. -/
def runGets {V : Type} (build : Nat → V) : CacheState V → List Nat → Option (CacheState V)
  | c, [] => some c
  | c, t :: ts =>
    match get build c t with
    | none => none
    | some (_, c1) => runGets build c1 ts

end TreeCache

structure LinkRow where
  id : Nat
  thread_id : Nat
  previous_message_id : Nat
  next_message_id : Nat
deriving DecidableEq

structure MessageRow where
  id : Nat
  thread_id : Nat
  content : String
deriving DecidableEq

namespace DB

/-- backend/db/db.py DB.delete_summary: `.first()` on the id filter, then
`session.delete` on the result; when no row matches, `session.delete(None)`
raises (UnmappedInstanceError) — the `.error` case. -/
def delete_summary (store : List SummaryRow) (summary_id : Nat) :
    Except Unit (List SummaryRow) :=
  match store.find? (fun s => s.id == summary_id) with
  | none => .error ()
  | some _ => .ok (store.eraseP (fun s => s.id == summary_id))

/-- backend/db/db.py DB.delete_link: the filter is written
`filter(A and B)` over two SQLAlchemy equality expressions; such an
expression is falsy under Python bool (its dunder bool compares the hashes of
the two operands), so `A and B` evaluates to A and the query filters on
previous_message_id only. The first matching row is deleted;
`session.delete(None)` raises when there is none. -/
def delete_link (store : List LinkRow) (previous_message_id next_message_id : Nat) :
    Except Unit (List LinkRow) :=
  match store.find? (fun l => l.previous_message_id == previous_message_id) with
  | none => .error ()
  | some _ => .ok (store.eraseP (fun l => l.previous_message_id == previous_message_id))

/-- backend/db/db.py DB.delete_message: first row with the id, raising via
`session.delete(None)` when absent. -/
def delete_message (store : List MessageRow) (message_id : Nat) :
    Except Unit (List MessageRow) :=
  match store.find? (fun m => m.id == message_id) with
  | none => .error ()
  | some _ => .ok (store.eraseP (fun m => m.id == message_id))

end DB

/-- Events of one dispatcher action, in execution order: durable store
mutations, the in-memory tree mutations, cache materialization and oracle
calls. -/
inductive Ev where
  | storeInsertMessage
  | storeInsertLink
  | storeDeleteSummary
  | storeInsertSummary
  | cacheLoad
  | oracleSummarize
  | memAddMessage
  | memSplitSummary
deriving DecidableEq

def Ev.isStoreMut : Ev → Bool
  | .storeInsertMessage | .storeInsertLink | .storeDeleteSummary | .storeInsertSummary => true
  | _ => false

def Ev.isMemMut : Ev → Bool
  | .memAddMessage | .memSplitSummary => true
  | _ => false

/-- The cached in-memory pair of one thread: message tree index and summary
index. -/
structure TreePair where
  mt : Dict MessageNode
  st : SummaryIndex

/-- Dispatcher-visible state: the cached pair for the acted-on thread (none
when not resident), the store's id counter, the store-call counter driving
the failure schedule, and the event trace. -/
structure HState where
  trees : Option TreePair
  nextId : Nat
  calls : Nat
  trace : List Ev

namespace Handler

/-- One durable store call: the schedule decides, by call index, whether the
call raises. A successful call records its event and returns a fresh id. -/
def storeOp (fail : Nat → Bool) (e : Ev) (s : HState) : Except HErr Nat × HState :=
  if fail s.calls then
    (.error .storeErr, { s with calls := s.calls + 1 })
  else
    (.ok s.nextId,
     { s with calls := s.calls + 1, nextId := s.nextId + 1, trace := s.trace ++ [e] })

/-- TreeCache.get as seen from the handler: return the resident pair, or
materialize the pair from the store (a read-only construction, `build`). -/
def cacheGet (build : TreePair) (s : HState) : TreePair × HState :=
  match s.trees with
  | some p => (p, s)
  | none => (build, { s with trees := some build, trace := s.trace ++ [.cacheLoad] })

/-- services/chat_trees.py MessageTree.add_message, acting on the cached
pair: install the new node (the source omits the child_ids key on the fresh
node; modelled as the empty list), then append to the parent's child list —
an unguarded subscript that raises KeyError when prev_message_id is None or
absent, after the install has already happened. -/
def memAddMessage (message_id : Nat) (content : String) (prev_message_id : Option Nat)
    (s : HState) : Except HErr Unit × HState :=
  match s.trees with
  | none => (.error .keyErr, s)
  | some p =>
    let mt1 := dset p.mt message_id ⟨message_id, content, prev_message_id, []⟩
    let s1 := { s with trees := some { p with mt := mt1 },
                       trace := s.trace ++ [.memAddMessage] }
    match prev_message_id with
    | none => (.error .keyErrNone, s1)
    | some q =>
      match mt1 q with
      | none => (.error .keyErr, s1)
      | some qn =>
        (.ok (),
         { s1 with trees := some { p with
             mt := dset mt1 q { qn with child_ids := qn.child_ids ++ [message_id] } } })

/-- services/dispatcher.py Handler.add_message: insert the message, insert
the link when a previous message is given, get the cached trees, add the
message in memory. -/
def add_message (fail : Nat → Bool) (build : TreePair) (content : String)
    (prev_message_id : Option Nat) (s : HState) : Except HErr Nat × HState :=
  match storeOp fail .storeInsertMessage s with
  | (.error e, s1) => (.error e, s1)
  | (.ok msgId, s1) =>
    let linkStep : Except HErr Unit × HState :=
      match prev_message_id with
      | none => (.ok (), s1)
      | some _ =>
        match storeOp fail .storeInsertLink s1 with
        | (.error e, s2) => (.error e, s2)
        | (.ok _, s2) => (.ok (), s2)
    match linkStep with
    | (.error e, s2) => (.error e, s2)
    | (.ok _, s2) =>
      let (_, s3) := cacheGet build s2
      match memAddMessage msgId content prev_message_id s3 with
      | (.error e, s4) => (.error e, s4)
      | (.ok _, s4) => (.ok msgId, s4)

/-- The parent walk of services/dispatcher.py Handler._add_summary (the
summarization sub-protocol): loop while prev_message_id is None or not an
end-of-summary key; the body subscripts the message index with the current
value, so a walk that runs past the root subscripts with None and raises
KeyError. Returns the collected contents and the last start assigned. -/
def add_summary_walk (mt : Dict MessageNode) (endl : Dict Nat) :
    Nat → Option Nat → List String → Option Nat →
    Except HErr (List String × Option Nat)
  | 0, _, _, _ => .error .fuelOut
  | fuel + 1, prev, acc, start =>
    let cond := match prev with
      | none => true
      | some p => (endl p).isNone
    if cond then
      match prev with
      | none => .error .keyErrNone
      | some p =>
        match mt p with
        | none => .error .keyErr
        | some msg => add_summary_walk mt endl fuel msg.parent_id (acc ++ [msg.content]) (some p)
    else .ok (acc, start)

/-- The pre-summary parent walk of services/dispatcher.py
Handler.split_summary: loop while the current id is not an end-of-summary
key; past the root the current id is None, `None not in end_lookup` holds,
and the body subscripts the message index with None. -/
def pre_summary_walk (mt : Dict MessageNode) (endl : Dict Nat) :
    Nat → Option Nat → List String → Nat → Except HErr (List String × Nat)
  | 0, _, _, _ => .error .fuelOut
  | fuel + 1, mid, contents, preStart =>
    let notEnd := match mid with
      | none => true
      | some m => (endl m).isNone
    if notEnd then
      match mid with
      | none => .error .keyErrNone
      | some m =>
        match mt m with
        | none => .error .keyErr
        | some msg => pre_summary_walk mt endl fuel msg.parent_id (contents ++ [msg.content]) m
    else .ok (contents, preStart)

/-- The post-summary child walk of services/dispatcher.py
Handler.split_summary: follow child_ids[0] while the current id is not a
start-of-summary key; a missing child trips IndexError. -/
def post_summary_walk (mt : Dict MessageNode) (startl : Dict Nat) :
    Nat → Nat → List String → Nat → Except HErr (List String × Nat)
  | 0, _, _, _ => .error .fuelOut
  | fuel + 1, mid, contents, postEnd =>
    if (startl mid).isNone then
      match mt mid with
      | none => .error .keyErr
      | some msg =>
        match msg.child_ids with
        | [] => .error .keyErr
        | c :: _ => post_summary_walk mt startl fuel c (contents ++ [msg.content]) mid
    else .ok (contents, postEnd)

/-- services/chat_trees.py SummaryTree.split_summary, acting on the cached
pair: delete the old node and its index entries, then install the pre and
post nodes. This draft writes the message ids, not the summary ids, as the
values of the inverse-index entries it re-creates — embedded as written. -/
def memSplitSummary (summary_id pre_id : Nat) (pre_content : String)
    (branch_off_message_id post_id : Nat) (post_content : String)
    (s : HState) : Except HErr Unit × HState :=
  match s.trees with
  | none => (.error .keyErr, s)
  | some p =>
    match p.st.summary_id_lookup summary_id with
    | none => (.error .keyErr, s)
    | some summary =>
      let st1 : SummaryIndex :=
        ⟨ddel p.st.start_message_lookup summary.start_message_id,
         ddel p.st.end_message_lookup summary.end_message_id,
         ddel p.st.summary_id_lookup summary_id⟩
      let s1 := { s with trees := some { p with st := st1 },
                         trace := s.trace ++ [.memSplitSummary] }
      match p.mt branch_off_message_id with
      | none => (.error .keyErr, s1)
      | some bnode =>
        match bnode.child_ids with
        | [] => (.error .keyErr, s1)
        | c0 :: _ =>
          let pre : SummaryNode :=
            ⟨pre_id, pre_content, summary.start_message_id,
              branch_off_message_id, summary.parent_id, [post_id]⟩
          let post : SummaryNode :=
            ⟨post_id, post_content, c0, summary.end_message_id,
              some pre_id, summary.child_ids⟩
          let st2 : SummaryIndex :=
            ⟨dset (dset st1.start_message_lookup pre.start_message_id pre.start_message_id)
               post.start_message_id post.start_message_id,
             dset (dset st1.end_message_lookup pre.end_message_id pre.end_message_id)
               post.end_message_id post.end_message_id,
             dset (dset st1.summary_id_lookup pre_id pre) post_id post⟩
          (.ok (), { s1 with trees := some { p with st := st2 } })

/-- services/dispatcher.py Handler.split_summary: get the cached trees, walk
up to the previous summary boundary collecting pre contents, resolve the
split summary id, summarize, walk down collecting post contents, summarize,
then delete the old summary and insert the two new ones durably, and last
patch the in-memory summary tree. -/
def split_summary (fail : Nat → Bool) (build : TreePair)
    (summarize : List String → String) (branch_off_message_id : Nat)
    (fuel : Nat) (s : HState) : Except HErr Unit × HState :=
  let (pair, s1) := cacheGet build s
  match pre_summary_walk pair.mt pair.st.end_message_lookup fuel
      (some branch_off_message_id) [] branch_off_message_id with
  | .error e => (.error e, s1)
  | .ok (preContents, preStart) =>
    match pair.st.start_message_lookup preStart with
    | none => (.error .keyErr, s1)
    | some summaryId =>
      let preContent := summarize preContents
      let s2 := { s1 with trace := s1.trace ++ [.oracleSummarize] }
      match pair.mt branch_off_message_id with
      | none => (.error .keyErr, s2)
      | some bnode =>
        match bnode.child_ids with
        | [] => (.error .keyErr, s2)
        | c0 :: _ =>
          match post_summary_walk pair.mt pair.st.start_message_lookup fuel c0 [] c0 with
          | .error e => (.error e, s2)
          | .ok (postContents, _postEnd) =>
            let postContent := summarize postContents
            let s3 := { s2 with trace := s2.trace ++ [.oracleSummarize] }
            match storeOp fail .storeDeleteSummary s3 with
            | (.error e, s4) => (.error e, s4)
            | (.ok _, s4) =>
              match storeOp fail .storeInsertSummary s4 with
              | (.error e, s5) => (.error e, s5)
              | (.ok preId, s5) =>
                match storeOp fail .storeInsertSummary s5 with
                | (.error e, s6) => (.error e, s6)
                | (.ok postId, s6) =>
                  memSplitSummary summaryId preId preContent
                    branch_off_message_id postId postContent s6

end Handler

def initState (trees0 : Option TreePair) (n0 : Nat) : HState := ⟨trees0, n0, 0, []⟩

/-- Every durable mutation of a trace happens before every in-memory
mutation: the trace splits into a prefix free of memory mutations and a
suffix free of store mutations. -/
def StoreBeforeMem (tr : List Ev) : Prop :=
  ∃ t1 t2, tr = t1 ++ t2 ∧ (∀ e ∈ t1, e.isMemMut = false) ∧
    (∀ e ∈ t2, e.isStoreMut = false)

/-- Outcome of the summarization sub-protocol. -/
inductive ProtoOut where
  | noop
  | inserted (start_message_id end_message_id : Nat) (text : String) (idx2 : SummaryIndex)
  | failed

def ProtoOut.isInserted : ProtoOut → Bool
  | .inserted _ _ _ _ => true
  | _ => false

/-- Modelled from the spec: the parent walk of the summarization sub-protocol
(spec section 4.4 with the design note of section 9), which accumulates
contents from prev_message_id upward while the current id is not an
end-of-summary key and treats running past the root as a valid termination,
returning the collected contents in child-to-parent order together with the
topmost id reached. -/
def specSummaryWalk (mt : Dict MessageNode) (endl : Dict Nat) :
    Nat → Nat → List String → Option (List String × Nat)
  | 0, _, _ => none
  | fuel + 1, p, acc =>
    match mt p with
    | none => none
    | some msg =>
      let acc1 := acc ++ [msg.content]
      match msg.parent_id with
      | none => some (acc1, p)
      | some q =>
        if (endl q).isSome then some (acc1, p)
        else specSummaryWalk mt endl fuel q acc1

/-- Modelled from the spec: the add_message summarization sub-protocol of
spec section 4.4. The dispatcher draft that wires trigger_summarization and
summary_batch_size to these gates is exercised by the integration tests but
is absent from src/, so the protocol is modelled from the spec's words — do
nothing when prev_message_id is none, when the count of unsummarized messages
at prev_message_id is below the batch size, or when the oracle reports no
topic shift; otherwise accumulate the summarizable chain, summarize it and
install the summary. The count and the summary installation reuse the
embeddings of the real backend/services/chat_trees.py code. -/
def summarizationProtocol (mt : Dict MessageNode) (idx : SummaryIndex)
    (prev_message_id : Option Nat) (content : String) (batch_size : Nat)
    (topicShift : String → String → Bool) (summarize : List String → String)
    (summary_id : Nat) (fuel : Nat) : ProtoOut :=
  match prev_message_id with
  | none => .noop
  | some p =>
    match Backend.count_unsummarized_messages mt idx.end_message_lookup fuel (some p) with
    | none => .failed
    | some cnt =>
      if cnt < batch_size then .noop
      else
        match mt p with
        | none => .failed
        | some pmsg =>
          if !(topicShift pmsg.content content) then .noop
          else
            match specSummaryWalk mt idx.end_message_lookup fuel p [] with
            | none => .failed
            | some (contents, startId) =>
              let text := summarize contents
              match Backend.add_summary mt idx summary_id text startId p with
              | .error _ => .failed
              | .ok idx2 => .inserted startId p text idx2

/-- The summary_id lookup stores each node under its own id (part of the
data model of the SummaryIndex). -/
def keyConsistent (idx : SummaryIndex) : Prop :=
  ∀ s n, idx.summary_id_lookup s = some n → n.id = s

/-- Invariant I4, index consistency: for every resident SummaryNode, the
start lookup at its start and the end lookup at its end both give its id. -/
def indexI4 (idx : SummaryIndex) : Prop :=
  ∀ s n, idx.summary_id_lookup s = some n →
    idx.start_message_lookup n.start_message_id = some n.id ∧
    idx.end_message_lookup n.end_message_id = some n.id

/-- Outcome of a forward walk along unique children. -/
inductive WalkOutcome where
  | foundEnd
  | leafEnd
  | branchStop
deriving DecidableEq

/-- Declarative forward walk from a message along unique children: it finds
an end-of-summary key, ends at a leaf, or stops at the first node with two
or more children. -/
inductive ForwardWalk (mt : Dict MessageNode) (endl : Dict Nat) :
    Nat → WalkOutcome → Prop where
  | found {m : Nat} : (endl m).isSome → ForwardWalk mt endl m .foundEnd
  | leaf {m : Nat} {node : MessageNode} : endl m = none → mt m = some node →
      node.child_ids = [] → ForwardWalk mt endl m .leafEnd
  | branch {m : Nat} {node : MessageNode} : endl m = none → mt m = some node →
      2 ≤ node.child_ids.length → ForwardWalk mt endl m .branchStop
  | step {m c : Nat} {node : MessageNode} {o : WalkOutcome} : endl m = none →
      mt m = some node → node.child_ids = [c] → ForwardWalk mt endl c o →
      ForwardWalk mt endl m o

/-- Message tree with a single root node 1. -/
def rootOnlyTree : Dict MessageNode :=
  fun x => if x = 1 then some ⟨1, "r", none, []⟩ else none

/-- Cache state after filling capacity 2 with threads 1 and 2 and then
invalidating both. -/
def cacheDrained : Option (TreeCache.CacheState Nat) :=
  (TreeCache.runGets (fun t => t) ⟨[], 2, 0⟩ [1, 2]).map
    (fun c => TreeCache.delete (TreeCache.delete c 1) 2)

/-- Cache state after filling capacity 2 with threads 1 and 2 and then
invalidating thread 1 only. -/
def cacheHalfDrained : Option (TreeCache.CacheState Nat) :=
  (TreeCache.runGets (fun t => t) ⟨[], 2, 0⟩ [1, 2]).map
    (fun c => TreeCache.delete c 1)

/-- Linear two-message tree 1 → 2. -/
def chain2 : Dict MessageNode :=
  fun x =>
    if x = 1 then some ⟨1, "a", none, [2]⟩
    else if x = 2 then some ⟨2, "b", some 1, []⟩
    else none

/-- Linear three-message tree 1 → 2 → 3. -/
def chain3 : Dict MessageNode :=
  fun x =>
    if x = 1 then some ⟨1, "a", none, [2]⟩
    else if x = 2 then some ⟨2, "b", some 1, [3]⟩
    else if x = 3 then some ⟨3, "c", some 2, []⟩
    else none

/-- End lookup of a single summary 1 ending at message 2. -/
def endlSpan12 : Dict Nat := fun x => if x = 2 then some 1 else none

def idxEmpty : SummaryIndex := ⟨dempty, dempty, dempty⟩

/-- A summary over messages 2..2 whose start's parent (message 1) carries no
summary: an unsummarized tail above the summary. -/
def c8Row : SummaryRow := ⟨7, "s", 2, 2⟩

/-- A summary node over the whole chain 1..3. -/
def c1Old : SummaryNode := ⟨5, "s", 1, 3, none, []⟩

/-- A consistent summary index holding only c1Old. -/
def c1Idx : SummaryIndex :=
  ⟨fun x => if x = 1 then some 5 else none,
   fun x => if x = 3 then some 5 else none,
   fun x => if x = 5 then some c1Old else none⟩

/-- The summary index produced by installing summary 9 over 1..2 into the
empty index. -/
def c4Idx2 : SummaryIndex :=
  ⟨dset dempty 1 9, dset dempty 2 9, dset dempty 9 ⟨9, "S", 1, 2, none, []⟩⟩

/-- An empty cached pair. -/
def pair0 : TreePair := ⟨dempty, idxEmpty⟩

/-- Boolean check that no store mutation follows a memory mutation in a
trace. -/
def storeBeforeMemB (tr : List Ev) : Bool :=
  (tr.dropWhile (fun e => !e.isMemMut)).all (fun e => !e.isStoreMut)

/-- The value is_summarized returns for each declarative walk outcome: true
on an end-of-summary key, false on a leaf, the assertion failure on a
branching node. -/
def walkResult : WalkOutcome → Except HErr Bool
  | .foundEnd => .ok true
  | .leafEnd => .ok false
  | .branchStop => .error .assertionFail

theorem dset_self {α : Type} (m : Dict α) (k : Nat) (v : α) : dset m k v k = some v := by
  simp [dset]

theorem dset_other {α : Type} (m : Dict α) (k k' : Nat) (v : α) (h : k' ≠ k) :
    dset m k v k' = m k' := by
  simp [dset, h]

theorem ddel_self {α : Type} (m : Dict α) (k : Nat) : ddel m k k = none := by
  simp [ddel]

theorem ddel_other {α : Type} (m : Dict α) (k k' : Nat) (h : k' ≠ k) :
    ddel m k k' = m k' := by
  simp [ddel, h]

/-- C6 counterexample: on a non-empty message tree (root node 1 present),
backend MessageTree.add_message with a null parent does not fail with an
invariant violation as claimed: it succeeds and installs a second parentless
node, leaving two roots. -/
theorem c6_second_root_not_rejected :
    Backend.add_message rootOnlyTree 2 "x" none =
      .ok (dset rootOnlyTree 2 ⟨2, "x", none, []⟩) ∧
    (dset rootOnlyTree 2 ⟨2, "x", none, []⟩) 1 = some ⟨1, "r", none, []⟩ ∧
    (dset rootOnlyTree 2 ⟨2, "x", none, []⟩) 2 = some ⟨2, "x", none, []⟩ := by
  refine ⟨rfl, by decide, by decide⟩

/-- C6 amended: MessageTree.add_message with a null parent_id never fails and
unconditionally installs the new node as a parentless root, whatever the
existing tree holds — there is no single-root guard in the code. -/
theorem c6_root_insert_unguarded :
    ∀ (index : Dict MessageNode) (message_id : Nat) (content : String),
      Backend.add_message index message_id content none =
        .ok (dset index message_id ⟨message_id, content, none, []⟩) :=
  fun _ _ _ => rfl

/-- C9: the store deletes are not idempotent and delete_link does not match
on both endpoints. Deleting an absent summary, message or link raises
(session.delete of a None query result) instead of succeeding; and with two
links sharing the previous endpoint, delete_link(1, 3) removes the link
(1, 2) — the first row matching the previous endpoint — because the Python
`and` of the two filter expressions evaluates to the first one. -/
theorem c9_deletes_not_idempotent :
    DB.delete_summary ([] : List SummaryRow) 1 = .error () ∧
    DB.delete_message ([] : List MessageRow) 1 = .error () ∧
    DB.delete_link ([] : List LinkRow) 1 2 = .error () ∧
    DB.delete_summary [⟨1, "s", 1, 2⟩] 1 = .ok [] ∧
    DB.delete_link [⟨1, 1, 1, 2⟩, ⟨2, 1, 1, 3⟩] 1 3 = .ok [⟨2, 1, 1, 3⟩] := by
  refine ⟨rfl, rfl, rfl, ?_, ?_⟩ <;> rfl

/-- C3: the cache does not promote on hit. With capacity 2, get(1), get(2),
get(3) leaves residents [3, 2] (front first) as the claim's first scenario
says; but continuing with get(2) — a hit, which the code returns without
reordering — and then get(1), the miss evicts 2 (the back entry, by
insertion order), leaving residents [1, 3] where the claim requires 2 and 1
to be the residents. -/
theorem c3_cache_no_promotion_on_hit :
    ((TreeCache.runGets (fun t => t) ⟨[], 2, 0⟩ [1, 2, 3]).map
        (fun c => c.cache.map Prod.fst) = some [3, 2]) ∧
    ((TreeCache.runGets (fun t => t) ⟨[], 2, 0⟩ [1, 2, 3, 2, 1]).map
        (fun c => c.cache.map Prod.fst) = some [1, 3]) := by
  exact ⟨rfl, rfl⟩

/-- C10: TreeCache.delete never decrements curr_capacity; consequently after
filling the cache to capacity and deleting every entry, a get on an absent
key pops from an empty OrderedDict (KeyError — the none result) instead of
building a fresh pair; and after deleting one of two entries, a miss still
evicts the remaining entry even though the cache holds fewer entries than
max_capacity. -/
theorem c10_delete_keeps_counter :
    (∀ (c : TreeCache.CacheState Nat) (t : Nat),
        (TreeCache.delete c t).curr_capacity = c.curr_capacity) ∧
    (cacheDrained.map (fun c => (TreeCache.get (fun t => t) c 3).isNone) = some true) ∧
    (cacheHalfDrained.map (fun c => c.cache.length) = some 1) ∧
    (cacheHalfDrained.map (fun c => (TreeCache.get (fun t => t) c 3).map
        (fun pr => pr.2.cache.map Prod.fst)) = some (some [3])) := by
  refine ⟨?_, rfl, rfl, rfl⟩
  intro c t
  unfold TreeCache.delete
  cases TreeCache.odLookup c.cache t <;> rfl

theorem is_summarized_sound (mt : Dict MessageNode) (endl : Dict Nat) :
    ∀ (fuel m : Nat) (o : WalkOutcome),
      Backend.is_summarized mt endl fuel m = walkResult o → ForwardWalk mt endl m o := by
  intro fuel
  induction fuel with
  | zero =>
    intro m o h
    cases o <;> simp [Backend.is_summarized, walkResult] at h
  | succ f ih =>
    intro m o h
    simp only [Backend.is_summarized] at h
    split at h
    · rename_i he
      cases o <;> simp only [walkResult] at h
      · exact ForwardWalk.found he
      · exact absurd h (by simp)
      · exact absurd h (by simp)
    · rename_i he
      have he2 : endl m = none := Option.not_isSome_iff_eq_none.mp he
      split at h
      · cases o <;> simp [walkResult] at h
      · rename_i node hm
        split at h
        · rename_i hc
          cases o <;> simp only [walkResult] at h
          · exact absurd h (by simp)
          · exact ForwardWalk.leaf he2 hm hc
          · exact absurd h (by simp)
        · rename_i c hc
          exact ForwardWalk.step he2 hm hc (ih c o h)
        · rename_i c d rest hc
          cases o <;> simp only [walkResult] at h
          · exact absurd h (by simp)
          · exact absurd h (by simp)
          · exact ForwardWalk.branch he2 hm (by rw [hc]; simp)

theorem is_summarized_complete (mt : Dict MessageNode) (endl : Dict Nat) :
    ∀ (m : Nat) (o : WalkOutcome), ForwardWalk mt endl m o →
      ∃ fuel, Backend.is_summarized mt endl fuel m = walkResult o := by
  intro m o hw
  induction hw with
  | found he => exact ⟨1, by simp [Backend.is_summarized, he, walkResult]⟩
  | leaf he hm hc =>
    exact ⟨1, by simp [Backend.is_summarized, he, hm, hc, walkResult]⟩
  | @branch m2 node he hm hlen =>
    obtain ⟨c, d, rest, hc⟩ : ∃ c d rest, node.child_ids = c :: d :: rest := by
      cases hl : node.child_ids with
      | nil => rw [hl] at hlen; simp at hlen
      | cons c t =>
        cases t with
        | nil => rw [hl] at hlen; simp at hlen
        | cons d r => exact ⟨c, d, r, rfl⟩
    exact ⟨1, by simp [Backend.is_summarized, he, hm, hc, walkResult]⟩
  | @step m2 c node o2 he hm hc hrec ih =>
    obtain ⟨f, hf⟩ := ih
    refine ⟨f + 1, ?_⟩
    simp only [Backend.is_summarized, he, hm, hc]
    simpa using hf

/-- C7: is_summarized, characterized by the declarative forward walk — it can
return true exactly when walking unique child links from the message meets an
end-of-summary key, it can return false exactly when that walk ends at a leaf
before any end-of-summary key, and it can fail with the assertion (the
AmbiguousPath error kind) exactly when the walk meets a node with two or more
children before any end-of-summary key. -/
theorem c7_is_summarized_characterization (mt : Dict MessageNode) (endl : Dict Nat) (m : Nat) :
    ((∃ fuel, Backend.is_summarized mt endl fuel m = .ok true) ↔
        ForwardWalk mt endl m .foundEnd) ∧
    ((∃ fuel, Backend.is_summarized mt endl fuel m = .ok false) ↔
        ForwardWalk mt endl m .leafEnd) ∧
    ((∃ fuel, Backend.is_summarized mt endl fuel m = .error .assertionFail) ↔
        ForwardWalk mt endl m .branchStop) := by
  refine ⟨⟨?_, ?_⟩, ⟨?_, ?_⟩, ⟨?_, ?_⟩⟩
  · rintro ⟨fuel, hf⟩
    exact is_summarized_sound mt endl fuel m .foundEnd hf
  · intro hw
    exact is_summarized_complete mt endl m .foundEnd hw
  · rintro ⟨fuel, hf⟩
    exact is_summarized_sound mt endl fuel m .leafEnd hf
  · intro hw
    exact is_summarized_complete mt endl m .leafEnd hw
  · rintro ⟨fuel, hf⟩
    exact is_summarized_sound mt endl fuel m .branchStop hf
  · intro hw
    exact is_summarized_complete mt endl m .branchStop hw

theorem load_phase2_step_parent_missing (mt : Dict MessageNode) (startl endl : Dict Nat)
    (idl : Dict SummaryNode) (r : SummaryRow) (snode : MessageNode) (p : Nat)
    (h1 : mt r.start_message_id = some snode) (h2 : snode.parent_id = some p)
    (hp : p ≠ 0) (h3 : endl p = none) :
    Backend.load_phase2_step mt startl endl idl r = .error .keyErr := by
  simp [Backend.load_phase2_step, h1, h2, h3, truthy, hp]

theorem load_phase2_mem_err (mt : Dict MessageNode) (startl endl : Dict Nat)
    (r : SummaryRow)
    (hstep : ∀ idl, Backend.load_phase2_step mt startl endl idl r = .error .keyErr) :
    ∀ (rows : List SummaryRow) (idl : Dict SummaryNode), r ∈ rows →
      ∃ e, Backend.load_phase2 mt startl endl idl rows = .error e := by
  intro rows
  induction rows with
  | nil =>
    intro idl hr
    simp at hr
  | cons a t ih =>
    intro idl hr
    cases hs : Backend.load_phase2_step mt startl endl idl a with
    | error e =>
      exact ⟨e, by simp [Backend.load_phase2, hs]⟩
    | ok idl1 =>
      rcases List.mem_cons.mp hr with h | h
      · rw [← h, hstep idl] at hs
        cases hs
      · obtain ⟨e, he⟩ := ih idl1 h
        exact ⟨e, by simp [Backend.load_phase2, hs, he]⟩

/-- C8 counterexample: a message tree 1 → 2 and one summary spanning 2..2 —
its start's parent is message 1 and no summary ends at 1 (the tail above it
is unsummarized). The claim says construction succeeds treating the summary
as a root of the summary tree; the code raises KeyError on the end-lookup
subscript instead. -/
theorem c8_load_fails_on_unsummarized_tail :
    Backend.load_index chain2 1 [c8Row] = .error .keyErr := rfl

/-- C8 amended: SummaryTree construction is tolerant only on the child side;
whenever some fetched summary's start message has a truthy parent p and no
summary ends at p, _load_index raises KeyError — construction fails rather
than installing the summary as a parentless root. -/
theorem c8_load_error_characterization (mt : Dict MessageNode) (root : Nat)
    (rows : List SummaryRow) (r : SummaryRow) (snode : MessageNode) (p : Nat)
    (hr : r ∈ rows) (h1 : mt r.start_message_id = some snode)
    (h2 : snode.parent_id = some p) (hp : p ≠ 0)
    (h3 : (Backend.load_phase1 rows).end_message_lookup p = none) :
    ∃ e, Backend.load_index mt root rows = .error e := by
  have hstep : ∀ idl, Backend.load_phase2_step mt (Backend.load_phase1 rows).start_message_lookup
      (Backend.load_phase1 rows).end_message_lookup idl r = .error .keyErr :=
    fun idl => load_phase2_step_parent_missing _ _ _ idl r snode p h1 h2 hp h3
  obtain ⟨e, he⟩ := load_phase2_mem_err mt
    (Backend.load_phase1 rows).start_message_lookup
    (Backend.load_phase1 rows).end_message_lookup r hstep rows
    (Backend.load_phase1 rows).summary_id_lookup hr
  exact ⟨e, by simp [Backend.load_index, he]⟩

/-- C8 witness: the amended statement applied to the two-message tree with
the single summary 2..2. -/
theorem c8_load_error_characterization_witness :
    c8Row ∈ [c8Row] ∧ chain2 c8Row.start_message_id = some ⟨2, "b", some 1, []⟩ ∧
    (Backend.load_phase1 [c8Row]).end_message_lookup 1 = none ∧
    ∃ e, Backend.load_index chain2 1 [c8Row] = .error e :=
  ⟨List.mem_singleton.mpr rfl, rfl, rfl,
    c8_load_error_characterization chain2 1 [c8Row] c8Row ⟨2, "b", some 1, []⟩ 1
      (List.mem_singleton.mpr rfl) rfl rfl (by decide) rfl⟩

/-- C5: both parent walks fail past the root by subscripting the message
index with None instead of terminating. With the three-message chain and no
summary at all (the thread's first summarization), the add_message
summarization walk from prev_message_id 2 runs 2, 1, None and raises; with
the summary spanning 1..2 and branch_off_message_id 1 (the repository's own
split test scenario), the pre-summary walk of branch_off runs 1, None and
raises. -/
theorem c5_walks_fail_past_root :
    Handler.add_summary_walk chain3 dempty 10 (some 2) [] none = .error .keyErrNone ∧
    Handler.pre_summary_walk chain3 endlSpan12 10 (some 1) [] 1 = .error .keyErrNone :=
  ⟨rfl, rfl⟩

/-- C4: the summarization sub-protocol of add_message creates a summary
exactly when all gates pass — prev_message_id is present, the count of
unsummarized messages at it reaches the batch size, and the oracle reports a
topic shift; with a missing prev_message_id or a failing gate it is a no-op
that leaves the summary index untouched. Stated for runs in which the count,
the previous message lookup, the accumulation walk and the summary
installation themselves succeed. -/
theorem c4_two_gate_summarization (mt : Dict MessageNode) (idx : SummaryIndex)
    (content : String) (batch_size : Nat) (topicShift : String → String → Bool)
    (summarize : List String → String) (summary_id fuel : Nat) :
    (summarizationProtocol mt idx none content batch_size topicShift summarize
        summary_id fuel = .noop) ∧
    (∀ (p cnt : Nat) (pmsg : MessageNode) (contents : List String) (startId : Nat)
        (idx2 : SummaryIndex),
      Backend.count_unsummarized_messages mt idx.end_message_lookup fuel (some p) = some cnt →
      mt p = some pmsg →
      specSummaryWalk mt idx.end_message_lookup fuel p [] = some (contents, startId) →
      Backend.add_summary mt idx summary_id (summarize contents) startId p = .ok idx2 →
      ((batch_size ≤ cnt ∧ topicShift pmsg.content content = true →
          summarizationProtocol mt idx (some p) content batch_size topicShift summarize
            summary_id fuel = .inserted startId p (summarize contents) idx2) ∧
       (cnt < batch_size ∨ topicShift pmsg.content content = false →
          summarizationProtocol mt idx (some p) content batch_size topicShift summarize
            summary_id fuel = .noop))) := by
  constructor
  · rfl
  · intro p cnt pmsg contents startId idx2 hcnt hp hw hadd
    constructor
    · rintro ⟨hb, hs⟩
      have hlt : ¬ cnt < batch_size := not_lt.mpr hb
      simp [summarizationProtocol, hcnt, hlt, hp, hs, hw, hadd]
    · intro h
      rcases h with hlt | hs
      · simp [summarizationProtocol, hcnt, hlt]
      · by_cases hlt : cnt < batch_size
        · simp [summarizationProtocol, hcnt, hlt]
        · simp [summarizationProtocol, hcnt, hlt, hp, hs]

/-- C4 witness: on the chain 1 → 2 with no summary yet, prev_message_id 2,
batch size 1 and an always-true oracle, the gates hold (count 2 is at least
1) and the protocol installs summary 9 over 1..2. -/
theorem c4_two_gate_summarization_witness :
    Backend.count_unsummarized_messages chain2 idxEmpty.end_message_lookup 5 (some 2) = some 2 ∧
    (1 ≤ 2 ∧ (fun _ _ : String => true) "b" "c" = true) ∧
    summarizationProtocol chain2 idxEmpty (some 2) "c" 1 (fun _ _ => true)
      (fun _ => "S") 9 5 = .inserted 1 2 "S" c4Idx2 :=
  ⟨rfl, ⟨by decide, rfl⟩,
    ((c4_two_gate_summarization chain2 idxEmpty "c" 1 (fun _ _ => true)
        (fun _ => "S") 9 5).2 2 2 ⟨2, "b", some 1, []⟩ ["b", "a"] 1 c4Idx2
      rfl rfl rfl rfl).1 ⟨by decide, rfl⟩⟩

/-- C1 counterexample: the claim promises that after split_summary the
summary_id lookup no longer contains the old id, for every state satisfying
I4 with the span properly containing the branch-off message. With the chain
1 → 2 → 3, the single summary 5 over 1..3 (a consistent state) and the
branch-off at 2, calling split_summary with pre id 5 — id reuse, which the
repository's own split test observes under SQLite — leaves id 5 resident,
now holding the pre node. -/
theorem c1_split_keeps_reused_id :
    keyConsistent c1Idx ∧ indexI4 c1Idx ∧
    (Backend.split_summary chain3 c1Idx 5 5 "p" 2 7 "q").map
      (fun i => (i.summary_id_lookup 5).isSome) = some true := by
  refine ⟨?_, ?_, rfl⟩
  · intro s n h
    simp only [c1Idx] at h
    split at h
    · rename_i hs
      injection h with h1
      subst h1
      rw [hs]
      rfl
    · cases h
  · intro s n h
    simp only [c1Idx] at h
    split at h
    · injection h with h1
      subst h1
      exact ⟨rfl, rfl⟩
    · cases h

/-- C1 amended: split_summary preserves index consistency and removes the old
id under the precondition as strengthened by the data model: the state
satisfies I4 and stores nodes under their own ids, the branch-off lies
properly inside the span (it differs from the old end, and the old start
differs from the branch-off's first child), the two new ids are fresh and
distinct, and no other resident summary starts at the branch-off's first
child or ends at the branch-off (a consequence of spans being disjoint linear
chains). The pre and post nodes carry exactly the spans, parents and children
the claim states. -/
theorem c1_split_preserves_index_consistency
    (mt : Dict MessageNode) (idx : SummaryIndex)
    (summary_id pre_id : Nat) (pre_content : String) (branch_off post_id : Nat)
    (post_content : String) (old : SummaryNode) (bnode : MessageNode)
    (c0 : Nat) (rest : List Nat)
    (hkc : keyConsistent idx) (h4 : indexI4 idx)
    (hold : idx.summary_id_lookup summary_id = some old)
    (hb : mt branch_off = some bnode)
    (hc : bnode.child_ids = c0 :: rest)
    (hend : branch_off ≠ old.end_message_id)
    (hstart : old.start_message_id ≠ c0)
    (hfp : idx.summary_id_lookup pre_id = none)
    (hfq : idx.summary_id_lookup post_id = none)
    (hpq : pre_id ≠ post_id)
    (hnostart : ∀ s n, idx.summary_id_lookup s = some n → s ≠ summary_id →
        n.start_message_id ≠ c0)
    (hnoend : ∀ s n, idx.summary_id_lookup s = some n → s ≠ summary_id →
        n.end_message_id ≠ branch_off) :
    ∃ idx2, Backend.split_summary mt idx summary_id pre_id pre_content branch_off
        post_id post_content = some idx2 ∧
      idx2.summary_id_lookup summary_id = none ∧
      idx2.summary_id_lookup pre_id =
        some ⟨pre_id, pre_content, old.start_message_id, branch_off,
          old.parent_id, [post_id]⟩ ∧
      idx2.summary_id_lookup post_id =
        some ⟨post_id, post_content, c0, old.end_message_id, some pre_id,
          old.child_ids⟩ ∧
      keyConsistent idx2 ∧ indexI4 idx2 := by
  have hps : pre_id ≠ summary_id := by
    intro h
    rw [h, hold] at hfp
    cases hfp
  have hqs : post_id ≠ summary_id := by
    intro h
    rw [h, hold] at hfq
    cases hfq
  have holdid : old.id = summary_id := hkc summary_id old hold
  refine ⟨⟨dset (dset (ddel idx.start_message_lookup old.start_message_id)
        old.start_message_id pre_id) c0 post_id,
      dset (dset (ddel idx.end_message_lookup old.end_message_id)
        branch_off pre_id) old.end_message_id post_id,
      dset (dset (ddel idx.summary_id_lookup summary_id) pre_id
          ⟨pre_id, pre_content, old.start_message_id, branch_off,
            old.parent_id, [post_id]⟩) post_id
        ⟨post_id, post_content, c0, old.end_message_id, some pre_id,
          old.child_ids⟩⟩, ?_, ?_, ?_, ?_, ?_, ?_⟩
  · simp [Backend.split_summary, hold, hb, hc]
  · dsimp only
    rw [dset_other _ _ _ _ (Ne.symm hqs), dset_other _ _ _ _ (Ne.symm hps), ddel_self]
  · dsimp only
    rw [dset_other _ _ _ _ hpq, dset_self]
  · dsimp only
    rw [dset_self]
  · intro s n h
    dsimp only at h
    by_cases hsq : s = post_id
    · subst hsq
      rw [dset_self] at h
      injection h with h1
      subst h1
      rfl
    · rw [dset_other _ _ _ _ hsq] at h
      by_cases hsp : s = pre_id
      · subst hsp
        rw [dset_self] at h
        injection h with h1
        subst h1
        rfl
      · rw [dset_other _ _ _ _ hsp] at h
        by_cases hss : s = summary_id
        · subst hss
          rw [ddel_self] at h
          cases h
        · rw [ddel_other _ _ _ hss] at h
          exact hkc s n h
  · intro s n h
    dsimp only at h ⊢
    by_cases hsq : s = post_id
    · subst hsq
      rw [dset_self] at h
      injection h with h1
      subst h1
      exact ⟨by rw [dset_self], by rw [dset_self]⟩
    · rw [dset_other _ _ _ _ hsq] at h
      by_cases hsp : s = pre_id
      · subst hsp
        rw [dset_self] at h
        injection h with h1
        subst h1
        refine ⟨?_, ?_⟩
        · rw [dset_other _ _ _ _ hstart, dset_self]
        · rw [dset_other _ _ _ _ hend, dset_self]
      · rw [dset_other _ _ _ _ hsp] at h
        by_cases hss : s = summary_id
        · subst hss
          rw [ddel_self] at h
          cases h
        · rw [ddel_other _ _ _ hss] at h
          have hI := h4 s n h
          have hid := hkc s n h
          have hIold := h4 summary_id old hold
          have hnso : n.start_message_id ≠ old.start_message_id := by
            intro heq
            rw [heq, hIold.1] at hI
            have : n.id = old.id := by
              have := hI.1
              injection this with h2
              exact h2.symm
            exact hss (hid ▸ holdid ▸ this)
          have hneo : n.end_message_id ≠ old.end_message_id := by
            intro heq
            rw [heq, hIold.2] at hI
            have : n.id = old.id := by
              have := hI.2
              injection this with h2
              exact h2.symm
            exact hss (hid ▸ holdid ▸ this)
          refine ⟨?_, ?_⟩
          · rw [dset_other _ _ _ _ (hnostart s n h hss),
              dset_other _ _ _ _ hnso, ddel_other _ _ _ hnso]
            exact (h4 s n h).1
          · rw [dset_other _ _ _ _ hneo,
              dset_other _ _ _ _ (hnoend s n h hss), ddel_other _ _ _ hneo]
            exact (h4 s n h).2

/-- C1 witness: the amended statement applied to the chain 1 → 2 → 3 with the
single summary 5 over 1..3, branch-off at message 2 and fresh ids 6 and 7. -/
theorem c1_split_preserves_index_consistency_witness :
    c1Idx.summary_id_lookup 5 = some c1Old ∧ chain3 2 = some ⟨2, "b", some 1, [3]⟩ ∧
    ∃ idx2, Backend.split_summary chain3 c1Idx 5 6 "p" 2 7 "q" = some idx2 ∧
      idx2.summary_id_lookup 5 = none ∧
      idx2.summary_id_lookup 6 =
        some ⟨6, "p", c1Old.start_message_id, 2, c1Old.parent_id, [7]⟩ ∧
      idx2.summary_id_lookup 7 =
        some ⟨7, "q", 3, c1Old.end_message_id, some 6, c1Old.child_ids⟩ ∧
      keyConsistent idx2 ∧ indexI4 idx2 := by
  have hkc : keyConsistent c1Idx := by
    intro s n h
    simp only [c1Idx] at h
    split at h
    · rename_i hs
      injection h with h1
      subst h1
      rw [hs]
      rfl
    · cases h
  have h4 : indexI4 c1Idx := by
    intro s n h
    simp only [c1Idx] at h
    split at h
    · injection h with h1
      subst h1
      exact ⟨rfl, rfl⟩
    · cases h
  have hnostart : ∀ s n, c1Idx.summary_id_lookup s = some n → s ≠ 5 →
      n.start_message_id ≠ 3 := by
    intro s n h hs
    simp only [c1Idx] at h
    rw [if_neg hs] at h
    cases h
  have hnoend : ∀ s n, c1Idx.summary_id_lookup s = some n → s ≠ 5 →
      n.end_message_id ≠ 2 := by
    intro s n h hs
    simp only [c1Idx] at h
    rw [if_neg hs] at h
    cases h
  exact ⟨rfl, rfl,
    c1_split_preserves_index_consistency chain3 c1Idx 5 6 "p" 2 7 "q" c1Old
      ⟨2, "b", some 1, [3]⟩ 3 [] hkc h4 rfl rfl rfl (by decide) (by decide)
      rfl rfl (by decide) hnostart hnoend⟩

theorem storeBeforeMemB_correct (tr : List Ev) (h : storeBeforeMemB tr = true) :
    StoreBeforeMem tr := by
  refine ⟨tr.takeWhile (fun e => !e.isMemMut), tr.dropWhile (fun e => !e.isMemMut),
    (List.takeWhile_append_dropWhile _ tr).symm, ?_, ?_⟩
  · intro e he
    have := List.mem_takeWhile_imp he
    simpa using this
  · intro e he
    have := List.all_eq_true.mp h e he
    simpa using this

theorem add_message_write_order (fail : Nat → Bool) (build : TreePair)
    (content : String) (prev : Option Nat) (trees0 : Option TreePair) (n0 : Nat) :
    StoreBeforeMem (Handler.add_message fail build content prev (initState trees0 n0)).2.trace ∧
    ((Handler.add_message fail build content prev (initState trees0 n0)).1 = .error .storeErr →
      (Handler.add_message fail build content prev (initState trees0 n0)).2.trees = trees0 ∧
      ∀ e ∈ (Handler.add_message fail build content prev (initState trees0 n0)).2.trace,
        e.isMemMut = false) := by
  by_cases hf0 : fail 0
  · have h1 : Handler.add_message fail build content prev (initState trees0 n0) =
        (.error .storeErr, ⟨trees0, n0, 1, []⟩) := by
      simp [Handler.add_message, Handler.storeOp, initState, hf0]
    rw [h1]
    exact ⟨storeBeforeMemB_correct _ (by dsimp only; decide), fun _ => ⟨rfl, by dsimp only; decide⟩⟩
  · cases prev with
    | none =>
      cases trees0 with
      | none =>
        have h1 : Handler.add_message fail build content none (initState none n0) =
            (.error .keyErrNone,
             ⟨some ⟨dset build.mt n0 ⟨n0, content, none, []⟩, build.st⟩, n0 + 1, 1,
               [.storeInsertMessage, .cacheLoad, .memAddMessage]⟩) := by
          simp [Handler.add_message, Handler.storeOp, Handler.cacheGet,
            Handler.memAddMessage, initState, hf0]
        rw [h1]
        exact ⟨storeBeforeMemB_correct _ (by dsimp only; decide), fun h => by simp at h⟩
      | some p =>
        have h1 : Handler.add_message fail build content none (initState (some p) n0) =
            (.error .keyErrNone,
             ⟨some ⟨dset p.mt n0 ⟨n0, content, none, []⟩, p.st⟩, n0 + 1, 1,
               [.storeInsertMessage, .memAddMessage]⟩) := by
          simp [Handler.add_message, Handler.storeOp, Handler.cacheGet,
            Handler.memAddMessage, initState, hf0]
        rw [h1]
        exact ⟨storeBeforeMemB_correct _ (by dsimp only; decide), fun h => by simp at h⟩
    | some q =>
      by_cases hf1 : fail 1
      · have h1 : Handler.add_message fail build content (some q) (initState trees0 n0) =
            (.error .storeErr, ⟨trees0, n0 + 1, 2, [.storeInsertMessage]⟩) := by
          simp [Handler.add_message, Handler.storeOp, initState, hf0, hf1]
        rw [h1]
        exact ⟨storeBeforeMemB_correct _ (by dsimp only; decide), fun _ => ⟨rfl, by dsimp only; decide⟩⟩
      · cases trees0 with
        | none =>
          cases hq : (dset build.mt n0 ⟨n0, content, some q, []⟩) q with
          | none =>
            have h1 : Handler.add_message fail build content (some q) (initState none n0) =
                (.error .keyErr,
                 ⟨some ⟨dset build.mt n0 ⟨n0, content, some q, []⟩, build.st⟩, n0 + 2, 2,
                   [.storeInsertMessage, .storeInsertLink, .cacheLoad, .memAddMessage]⟩) := by
              simp [Handler.add_message, Handler.storeOp, Handler.cacheGet,
                Handler.memAddMessage, initState, hf0, hf1, hq]
            rw [h1]
            exact ⟨storeBeforeMemB_correct _ (by dsimp only; decide), fun h => by simp at h⟩
          | some qn =>
            have h1 : Handler.add_message fail build content (some q) (initState none n0) =
                (.ok n0,
                 ⟨some ⟨dset (dset build.mt n0 ⟨n0, content, some q, []⟩) q
                     { qn with child_ids := qn.child_ids ++ [n0] }, build.st⟩, n0 + 2, 2,
                   [.storeInsertMessage, .storeInsertLink, .cacheLoad, .memAddMessage]⟩) := by
              simp [Handler.add_message, Handler.storeOp, Handler.cacheGet,
                Handler.memAddMessage, initState, hf0, hf1, hq]
            rw [h1]
            exact ⟨storeBeforeMemB_correct _ (by dsimp only; decide), fun h => by simp at h⟩
        | some p =>
          cases hq : (dset p.mt n0 ⟨n0, content, some q, []⟩) q with
          | none =>
            have h1 : Handler.add_message fail build content (some q) (initState (some p) n0) =
                (.error .keyErr,
                 ⟨some ⟨dset p.mt n0 ⟨n0, content, some q, []⟩, p.st⟩, n0 + 2, 2,
                   [.storeInsertMessage, .storeInsertLink, .memAddMessage]⟩) := by
              simp [Handler.add_message, Handler.storeOp, Handler.cacheGet,
                Handler.memAddMessage, initState, hf0, hf1, hq]
            rw [h1]
            exact ⟨storeBeforeMemB_correct _ (by dsimp only; decide), fun h => by simp at h⟩
          | some qn =>
            have h1 : Handler.add_message fail build content (some q) (initState (some p) n0) =
                (.ok n0,
                 ⟨some ⟨dset (dset p.mt n0 ⟨n0, content, some q, []⟩) q
                     { qn with child_ids := qn.child_ids ++ [n0] }, p.st⟩, n0 + 2, 2,
                   [.storeInsertMessage, .storeInsertLink, .memAddMessage]⟩) := by
              simp [Handler.add_message, Handler.storeOp, Handler.cacheGet,
                Handler.memAddMessage, initState, hf0, hf1, hq]
            rw [h1]
            exact ⟨storeBeforeMemB_correct _ (by dsimp only; decide), fun h => by simp at h⟩

theorem storeBeforeMem_append_left (tr0 l : List Ev)
    (h0m : ∀ e ∈ tr0, e.isMemMut = false) (hl : StoreBeforeMem l) :
    StoreBeforeMem (tr0 ++ l) := by
  obtain ⟨t1, t2, hsplit, h1, h2⟩ := hl
  refine ⟨tr0 ++ t1, t2, by rw [hsplit, List.append_assoc], ?_, h2⟩
  intro e he
  rcases List.mem_append.mp he with h | h
  · exact h0m e h
  · exact h1 e h

theorem memMut_append (tr0 l : List Ev) (h0 : ∀ e ∈ tr0, e.isMemMut = false)
    (hl : ∀ e ∈ l, e.isMemMut = false) : ∀ e ∈ tr0 ++ l, e.isMemMut = false := by
  intro e he
  rcases List.mem_append.mp he with h | h
  · exact h0 e h
  · exact hl e h

theorem storeBeforeMem_of_memFree (tr0 : List Ev)
    (h0m : ∀ e ∈ tr0, e.isMemMut = false) : StoreBeforeMem tr0 :=
  ⟨tr0, [], by simp, h0m, by simp⟩

theorem split_hit_write_order (fail : Nat → Bool) (build pair : TreePair)
    (summarize : List String → String) (branchOff fuel n0 : Nat) (tr0 : List Ev)
    (h0m : ∀ e ∈ tr0, e.isMemMut = false) :
    StoreBeforeMem (Handler.split_summary fail build summarize branchOff fuel
      ⟨some pair, n0, 0, tr0⟩).2.trace ∧
    ((Handler.split_summary fail build summarize branchOff fuel
        ⟨some pair, n0, 0, tr0⟩).1 = .error .storeErr →
      (Handler.split_summary fail build summarize branchOff fuel
        ⟨some pair, n0, 0, tr0⟩).2.trees = some pair ∧
      ∀ e ∈ (Handler.split_summary fail build summarize branchOff fuel
        ⟨some pair, n0, 0, tr0⟩).2.trace, e.isMemMut = false) := by
  cases hw : Handler.pre_summary_walk pair.mt pair.st.end_message_lookup fuel
      (some branchOff) [] branchOff with
  | error e =>
    simp only [Handler.split_summary, Handler.cacheGet, hw]
    exact ⟨storeBeforeMem_of_memFree tr0 h0m, fun _ => ⟨trivial, h0m⟩⟩
  | ok pw =>
    obtain ⟨preContents, preStart⟩ := pw
    cases hlook : pair.st.start_message_lookup preStart with
    | none =>
      simp only [Handler.split_summary, Handler.cacheGet, hw, hlook]
      exact ⟨storeBeforeMem_of_memFree tr0 h0m, fun _ => ⟨trivial, h0m⟩⟩
    | some summaryId =>
      cases hbn : pair.mt branchOff with
      | none =>
        simp only [Handler.split_summary, Handler.cacheGet, hw, hlook, hbn]
        refine ⟨?_, fun _ => ⟨trivial, ?_⟩⟩
        · exact storeBeforeMem_append_left _ _ h0m
            (storeBeforeMemB_correct _ (by decide))
        · exact memMut_append _ _ h0m (by decide)
      | some bnode =>
        cases hcids : bnode.child_ids with
        | nil =>
          simp only [Handler.split_summary, Handler.cacheGet, hw, hlook, hbn, hcids]
          refine ⟨?_, fun _ => ⟨trivial, ?_⟩⟩
          · exact storeBeforeMem_append_left _ _ h0m
              (storeBeforeMemB_correct _ (by decide))
          · exact memMut_append _ _ h0m (by decide)
        | cons c0 crest =>
          cases hpw : Handler.post_summary_walk pair.mt pair.st.start_message_lookup
              fuel c0 [] c0 with
          | error e =>
            simp only [Handler.split_summary, Handler.cacheGet, hw, hlook, hbn, hcids, hpw]
            refine ⟨?_, fun _ => ⟨trivial, ?_⟩⟩
            · exact storeBeforeMem_append_left _ _ h0m
                (storeBeforeMemB_correct _ (by decide))
            · exact memMut_append _ _ h0m (by decide)
          | ok pw2 =>
            obtain ⟨postContents, postEnd⟩ := pw2
            by_cases hf0 : fail 0
            · simp only [Handler.split_summary, Handler.cacheGet, Handler.storeOp,
                hw, hlook, hbn, hcids, hpw, hf0, List.append_assoc, List.singleton_append,
                List.cons_append, List.nil_append, if_true]
              refine ⟨?_, fun _ => ⟨trivial, ?_⟩⟩
              · exact storeBeforeMem_append_left _ _ h0m
                  (storeBeforeMemB_correct _ (by decide))
              · exact memMut_append _ _ h0m (by decide)
            · by_cases hf1 : fail 1
              · simp only [Handler.split_summary, Handler.cacheGet, Handler.storeOp,
                  hw, hlook, hbn, hcids, hpw, hf0, hf1, List.append_assoc,
                  List.singleton_append, List.cons_append, List.nil_append,
                  if_true, if_false, Bool.false_eq_true]
                refine ⟨?_, fun _ => ⟨trivial, ?_⟩⟩
                · exact storeBeforeMem_append_left _ _ h0m
                    (storeBeforeMemB_correct _ (by decide))
                · exact memMut_append _ _ h0m (by decide)
              · by_cases hf2 : fail 2
                · simp only [Handler.split_summary, Handler.cacheGet, Handler.storeOp,
                    hw, hlook, hbn, hcids, hpw, hf0, hf1, hf2, List.append_assoc,
                    List.singleton_append, List.cons_append, List.nil_append,
                    if_true, if_false, Bool.false_eq_true]
                  refine ⟨?_, fun _ => ⟨trivial, ?_⟩⟩
                  · exact storeBeforeMem_append_left _ _ h0m
                      (storeBeforeMemB_correct _ (by decide))
                  · exact memMut_append _ _ h0m (by decide)
                · cases hsl : pair.st.summary_id_lookup summaryId with
                  | none =>
                    simp only [Handler.split_summary, Handler.cacheGet, Handler.storeOp,
                      Handler.memSplitSummary, hw, hlook, hbn, hcids, hpw, hf0, hf1, hf2,
                      hsl, List.append_assoc, List.singleton_append, List.cons_append,
                      List.nil_append, if_true, if_false, Bool.false_eq_true]
                    refine ⟨?_, fun h => ?_⟩
                    · exact storeBeforeMem_append_left _ _ h0m
                        (storeBeforeMemB_correct _ (by decide))
                    · simp at h
                  | some old =>
                    simp only [Handler.split_summary, Handler.cacheGet, Handler.storeOp,
                      Handler.memSplitSummary, hw, hlook, hbn, hcids, hpw, hf0, hf1, hf2,
                      hsl, List.append_assoc, List.singleton_append, List.cons_append,
                      List.nil_append, if_true, if_false, Bool.false_eq_true]
                    refine ⟨?_, fun h => ?_⟩
                    · exact storeBeforeMem_append_left _ _ h0m
                        (storeBeforeMemB_correct _ (by decide))
                    · simp at h

theorem split_summary_write_order (fail : Nat → Bool) (build : TreePair)
    (summarize : List String → String) (branchOff fuel : Nat)
    (trees0 : Option TreePair) (n0 : Nat) :
    StoreBeforeMem (Handler.split_summary fail build summarize branchOff fuel
      (initState trees0 n0)).2.trace ∧
    ((Handler.split_summary fail build summarize branchOff fuel
        (initState trees0 n0)).1 = .error .storeErr →
      (Handler.split_summary fail build summarize branchOff fuel
        (initState trees0 n0)).2.trees =
          some (Handler.cacheGet build (initState trees0 n0)).1 ∧
      ∀ e ∈ (Handler.split_summary fail build summarize branchOff fuel
        (initState trees0 n0)).2.trace, e.isMemMut = false) := by
  cases trees0 with
  | some p =>
    exact split_hit_write_order fail build p summarize branchOff fuel n0 [] (by simp)
  | none =>
    have heq : Handler.split_summary fail build summarize branchOff fuel
        (initState none n0) =
        Handler.split_summary fail build summarize branchOff fuel
          ⟨some build, n0, 0, [Ev.cacheLoad]⟩ := rfl
    rw [heq]
    exact split_hit_write_order fail build build summarize branchOff fuel n0
      [Ev.cacheLoad] (by decide)

/-- C2: write-order discipline of the dispatcher. In Handler.add_message and
Handler.split_summary every durable store mutation (insert_message,
insert_link, delete_summary, insert_summary) is traced before any mutation of
the cached in-memory trees, whatever the failure schedule, the cache
residency and the walks do; and when a store call fails (the storeErr
result, surfaced to the caller), the cached trees hold no effect of the
action — for add_message they are exactly the initial ones, for split_summary
exactly the pair materialized by the initial cache get — and the trace holds
no memory mutation at all. -/
theorem c2_write_order_discipline :
    (∀ (fail : Nat → Bool) (build : TreePair) (content : String)
        (prev : Option Nat) (trees0 : Option TreePair) (n0 : Nat),
      StoreBeforeMem (Handler.add_message fail build content prev
        (initState trees0 n0)).2.trace ∧
      ((Handler.add_message fail build content prev (initState trees0 n0)).1 =
          .error .storeErr →
        (Handler.add_message fail build content prev
          (initState trees0 n0)).2.trees = trees0 ∧
        ∀ e ∈ (Handler.add_message fail build content prev
          (initState trees0 n0)).2.trace, e.isMemMut = false)) ∧
    (∀ (fail : Nat → Bool) (build : TreePair) (summarize : List String → String)
        (branchOff fuel : Nat) (trees0 : Option TreePair) (n0 : Nat),
      StoreBeforeMem (Handler.split_summary fail build summarize branchOff fuel
        (initState trees0 n0)).2.trace ∧
      ((Handler.split_summary fail build summarize branchOff fuel
          (initState trees0 n0)).1 = .error .storeErr →
        (Handler.split_summary fail build summarize branchOff fuel
          (initState trees0 n0)).2.trees =
            some (Handler.cacheGet build (initState trees0 n0)).1 ∧
        ∀ e ∈ (Handler.split_summary fail build summarize branchOff fuel
          (initState trees0 n0)).2.trace, e.isMemMut = false)) :=
  ⟨fun fail build content prev trees0 n0 =>
      add_message_write_order fail build content prev trees0 n0,
   fun fail build summarize branchOff fuel trees0 n0 =>
      split_summary_write_order fail build summarize branchOff fuel trees0 n0⟩

/-- C2 witness: with a schedule that fails the first store call, add_message
on a resident cached pair surfaces the store error, leaves the cached pair
untouched and performs no memory mutation. -/
theorem c2_write_order_discipline_witness :
    (Handler.add_message (fun _ => true) pair0 "x" (some 1)
      (initState (some pair0) 0)).1 = .error .storeErr ∧
    (Handler.add_message (fun _ => true) pair0 "x" (some 1)
      (initState (some pair0) 0)).2.trees = some pair0 ∧
    ∀ e ∈ (Handler.add_message (fun _ => true) pair0 "x" (some 1)
      (initState (some pair0) 0)).2.trace, e.isMemMut = false :=
  ⟨rfl,
   ((c2_write_order_discipline.1 (fun _ => true) pair0 "x" (some 1)
      (some pair0) 0).2 rfl).1,
   ((c2_write_order_discipline.1 (fun _ => true) pair0 "x" (some 1)
      (some pair0) 0).2 rfl).2⟩
